import Mathlib

/-!
Shallow embedding of the Buzz service-marketplace backend
(`backend/app/api/customers/routes.py`, `backend/app/api/providers/routes.py`,
`backend/app/api/admins/routes.py`, `backend/app/models/schemas.py`).

Instants are modelled as natural numbers of seconds since an epoch that
falls on a Monday at midnight, so that Python `datetime` comparison is the
numeric order and `datetime.weekday()` is arithmetic on the day index.
Money and ratings aggregates are modelled as rationals; database rows are
records in lists; each endpoint is a function from the database state to
the pair of the resulting state and a result or error, with errors raised
before any write leaving the state unchanged, exactly as in the source
(every raise happens before the corresponding insert or update call).
-/

namespace Buzz

/-- Number of seconds in a day. -/
def secondsPerDay : Nat := 86400

/-- A timezone-aware instant, as seconds since an epoch Monday midnight. -/
abbrev Instant := Nat

/-- Python `datetime.weekday()`: Monday = 0 .. Sunday = 6. -/
def pyWeekday (t : Instant) : Nat := (t / secondsPerDay) % 7

/-- The conversion `db_day = (day_of_week + 1) % 7` from `create_booking` and
`reschedule_booking`, giving the Sunday = 0 convention of the database. -/
def dbDay (t : Instant) : Nat := (pyWeekday t + 1) % 7

/-- Python `datetime.time()`: the time-of-day component of an instant. -/
def timeOfDay (t : Instant) : Nat := t % secondsPerDay

/-- The `BookingStatus` enum of `schemas.py`. -/
inductive BookingStatus where
  | pending
  | confirmed
  | rescheduled
  | completed
  | cancelled
deriving DecidableEq, Repr

/-- The test `status IN ('pending', 'confirmed', 'rescheduled')` used by every
booking-conflict query. -/
def BookingStatus.nonTerminal : BookingStatus → Bool
  | .pending => true
  | .confirmed => true
  | .rescheduled => true
  | .completed => false
  | .cancelled => false

/-- A geographic point, as a (longitude, latitude) pair of rationals. -/
abbrev Point := ℚ × ℚ

/-- A row of the `provider_profiles` table. Nullable columns are options. -/
structure ProviderProfile where
  id : Nat
  user_id : Nat
  category_id : Option Nat
  base_price : Option ℚ
  is_verified : Bool
  avg_rating : Option ℚ
  location : Option Point
deriving DecidableEq, Repr

/-- A row of the `provider_availability` table; times of day in seconds. -/
structure AvailabilitySlot where
  id : Nat
  provider_id : Nat
  day_of_week : Nat
  start_time : Nat
  end_time : Nat
deriving DecidableEq, Repr

/-- A row of the `bookings` table. -/
structure Booking where
  id : Nat
  customer_id : Nat
  provider_id : Nat
  status : BookingStatus
  scheduled_for : Instant
  service_address : String
  total_price : Option ℚ
  notes : Option String
  created_at : Instant
deriving DecidableEq, Repr

/-- A row of the `reviews` table. -/
structure Review where
  id : Nat
  booking_id : Nat
  customer_id : Nat
  provider_id : Nat
  rating : Nat
  comment : Option String
deriving DecidableEq, Repr

/-- The durable-store state read and written by the endpoints. -/
structure DB where
  providers : List ProviderProfile
  slots : List AvailabilitySlot
  bookings : List Booking
  reviews : List Review
deriving DecidableEq, Repr

/-- The caller-visible error kinds raised by the endpoints: 404, 403, 409,
the 400 transition-guard failure carrying the current status, the 400
validation failure, and the 400 raised when the instant is outside every
availability slot. -/
inductive ApiError where
  | notFound
  | forbidden
  | conflict
  | invalidTransition (current : BookingStatus)
  | invalidInput
  | outOfAvailability
deriving DecidableEq, Repr

/-- Request body of `POST /customers/bookings` (`BookingCreate`). -/
structure BookingCreate where
  provider_id : Nat
  scheduled_for : Instant
  service_address : String
  notes : Option String
deriving DecidableEq, Repr

/-- Request body of `POST /customers/reviews` (`ReviewCreate`). -/
structure ReviewCreate where
  booking_id : Nat
  rating : Nat
  comment : Option String
deriving DecidableEq, Repr

/-- Request body of `POST /providers/availability` (`AvailabilityCreate`). -/
structure AvailabilityCreate where
  day_of_week : Nat
  start_time : Nat
  end_time : Nat
deriving DecidableEq, Repr

/-- Request body of `PUT /providers/availability/id` (`AvailabilityUpdate`). -/
structure AvailabilityUpdate where
  start_time : Option Nat
  end_time : Option Nat
deriving DecidableEq, Repr

/-- The pydantic validator `scheduled_for_must_be_future` of `BookingCreate`
and `BookingRescheduleRequest`: `if v <= datetime.now(): raise`, so the value
passes exactly when it is strictly greater than the current time. -/
def scheduled_for_must_be_future (now v : Instant) : Bool := decide (now < v)

/-- The conflict query of `create_booking`: a non-terminal booking of the
provider at exactly the requested instant. -/
def hasBookingConflict (db : DB) (pid : Nat) (t : Instant) : Bool :=
  db.bookings.any fun b =>
    b.provider_id == pid && b.status.nonTerminal && b.scheduled_for == t

/-- The conflict re-check of `accept_booking` and `reschedule_booking`: like
`hasBookingConflict` but excluding the booking itself by `id != $2`. -/
def hasOtherBookingConflict (db : DB) (pid bid : Nat) (t : Instant) : Bool :=
  db.bookings.any fun b =>
    b.provider_id == pid && b.id != bid && b.status.nonTerminal && b.scheduled_for == t

/-- The availability query of `create_booking` and `reschedule_booking`:
a slot of the provider on the Sunday = 0 weekday of the instant with
`start_time <= $3 AND end_time >= $3` for the time of day. -/
def hasAvailability (db : DB) (pid : Nat) (t : Instant) : Bool :=
  db.slots.any fun s =>
    s.provider_id == pid && s.day_of_week == dbDay t &&
    decide (s.start_time ≤ timeOfDay t) && decide (timeOfDay t ≤ s.end_time)

/-- A booking id strictly larger than every id in the table, standing for the
fresh primary key generated by the database on insert. -/
def freshBookingId (db : DB) : Nat :=
  db.bookings.foldr (fun b m => max (b.id + 1) m) 0

/-- A fresh availability-slot id. -/
def freshSlotId (db : DB) : Nat :=
  db.slots.foldr (fun s m => max (s.id + 1) m) 0

/-- A fresh review id. -/
def freshReviewId (db : DB) : Nat :=
  db.reviews.foldr (fun r m => max (r.id + 1) m) 0

/-- The lookup `provider_profiles.select(*).eq("id", provider_id).single()`. -/
def findProvider (db : DB) (pid : Nat) : Option ProviderProfile :=
  db.providers.find? fun p => p.id == pid

/-- The lookup `bookings.select(*).eq("id", bid).eq("provider_id", pid)`. -/
def findBookingForProvider (db : DB) (bid pid : Nat) : Option Booking :=
  db.bookings.find? fun b => b.id == bid && b.provider_id == pid

/-- The lookup `bookings.select(*).eq("id", bid).eq("customer_id", cid)`. -/
def findBookingForCustomer (db : DB) (bid cid : Nat) : Option Booking :=
  db.bookings.find? fun b => b.id == bid && b.customer_id == cid

/-- The lookup `SELECT ... FROM bookings WHERE id = $1` of `create_review`. -/
def findBooking (db : DB) (bid : Nat) : Option Booking :=
  db.bookings.find? fun b => b.id == bid

/-- Python truthiness in the insert of `create_booking`: the source writes
`float(total_price) if total_price else None`, so a base price that is NULL
or 0 is stored as NULL. -/
def truthyPrice (v : Option ℚ) : Option ℚ :=
  match v with
  | none => none
  | some x => if x = 0 then none else some x

/-- The update `bookings.update(\x7bstatus\x7d).eq("id", bid)`: every row with
the given id gets the new status, all other fields untouched. -/
def setStatus (db : DB) (bid : Nat) (st : BookingStatus) : DB :=
  { db with bookings := db.bookings.map fun b =>
      if b.id == bid then { b with status := st } else b }

/-- Embedding of `create_booking` (customers/routes.py), including the
pydantic future-instant validation that runs before the handler body. -/
def create_booking (now : Instant) (cid : Nat) (req : BookingCreate) (db : DB) :
    DB × Except ApiError Booking :=
  if ¬ scheduled_for_must_be_future now req.scheduled_for then
    (db, .error .invalidInput)
  else
    match findProvider db req.provider_id with
    | none => (db, .error .notFound)
    | some provider =>
      if ¬ provider.is_verified then (db, .error .notFound)
      else if hasBookingConflict db req.provider_id req.scheduled_for then
        (db, .error .conflict)
      else if ¬ hasAvailability db req.provider_id req.scheduled_for then
        (db, .error .outOfAvailability)
      else
        let b : Booking := {
          id := freshBookingId db
          customer_id := cid
          provider_id := req.provider_id
          status := .pending
          scheduled_for := req.scheduled_for
          service_address := req.service_address
          total_price := truthyPrice provider.base_price
          notes := req.notes
          created_at := now }
        ({ db with bookings := db.bookings ++ [b] }, .ok b)

/-- Embedding of `accept_booking` (providers/routes.py). -/
def accept_booking (pid bid : Nat) (db : DB) : DB × Except ApiError Booking :=
  match findBookingForProvider db bid pid with
  | none => (db, .error .notFound)
  | some b =>
    if b.status ≠ .pending then (db, .error (.invalidTransition b.status))
    else if hasOtherBookingConflict db pid bid b.scheduled_for then
      (db, .error .conflict)
    else (setStatus db bid .confirmed, .ok { b with status := .confirmed })

/-- Embedding of `reject_booking` (providers/routes.py). -/
def reject_booking (pid bid : Nat) (db : DB) : DB × Except ApiError Booking :=
  match findBookingForProvider db bid pid with
  | none => (db, .error .notFound)
  | some b =>
    if b.status ≠ .pending then (db, .error (.invalidTransition b.status))
    else (setStatus db bid .cancelled, .ok { b with status := .cancelled })

/-- Embedding of `complete_booking` (providers/routes.py). -/
def complete_booking (pid bid : Nat) (db : DB) : DB × Except ApiError Booking :=
  match findBookingForProvider db bid pid with
  | none => (db, .error .notFound)
  | some b =>
    if ¬ (b.status = .confirmed ∨ b.status = .rescheduled) then
      (db, .error (.invalidTransition b.status))
    else (setStatus db bid .completed, .ok { b with status := .completed })

/-- Embedding of `cancel_booking` (customers/routes.py). -/
def cancel_booking (cid bid : Nat) (db : DB) : DB × Except ApiError Booking :=
  match findBookingForCustomer db bid cid with
  | none => (db, .error .notFound)
  | some b =>
    if ¬ (b.status = .pending ∨ b.status = .confirmed) then
      (db, .error (.invalidTransition b.status))
    else (setStatus db bid .cancelled, .ok { b with status := .cancelled })

/-- Embedding of `reschedule_booking` (providers/routes.py), including the
pydantic future-instant validation of `BookingRescheduleRequest`. -/
def reschedule_booking (now : Instant) (pid bid : Nat) (newTime : Instant)
    (db : DB) : DB × Except ApiError Booking :=
  if ¬ scheduled_for_must_be_future now newTime then (db, .error .invalidInput)
  else
    match findBookingForProvider db bid pid with
    | none => (db, .error .notFound)
    | some b =>
      if ¬ (b.status = .pending ∨ b.status = .confirmed ∨ b.status = .rescheduled) then
        (db, .error (.invalidTransition b.status))
      else if hasOtherBookingConflict db pid bid newTime then
        (db, .error .conflict)
      else if ¬ hasAvailability db pid newTime then
        (db, .error .outOfAvailability)
      else
        ({ db with bookings := db.bookings.map fun b2 =>
            if b2.id == bid then
              { b2 with status := .rescheduled, scheduled_for := newTime }
            else b2 },
         .ok { b with status := .rescheduled, scheduled_for := newTime })

/-- The SQL overlap disjunction shared by `create_availability` and
`update_availability`, where `cs, ce` is the candidate interval:
`(start_time <= cs AND end_time > cs) OR (start_time < ce AND end_time >= ce)
OR (start_time >= cs AND end_time <= ce)`. -/
def codeOverlap (s e cs ce : Nat) : Bool :=
  (decide (s ≤ cs) && decide (e > cs)) ||
  (decide (s < ce) && decide (e ≥ ce)) ||
  (decide (s ≥ cs) && decide (e ≤ ce))

/-- Modelled from the spec, section 4.2: the standard half-open overlap test
`existing.start < candidate.end AND existing.end > candidate.start`. -/
def specOverlap (s e cs ce : Nat) : Bool :=
  decide (s < ce) && decide (e > cs)

/-- The overlap query of `create_availability`. -/
def hasSlotOverlap (db : DB) (pid day cs ce : Nat) : Bool :=
  db.slots.any fun s =>
    s.provider_id == pid && s.day_of_week == day &&
    codeOverlap s.start_time s.end_time cs ce

/-- The overlap query of `update_availability`, excluding the updated slot
by `id != $3`. -/
def hasOtherSlotOverlap (db : DB) (pid day sid cs ce : Nat) : Bool :=
  db.slots.any fun s =>
    s.provider_id == pid && s.day_of_week == day && s.id != sid &&
    codeOverlap s.start_time s.end_time cs ce

/-- Embedding of `create_availability` (providers/routes.py), including the
pydantic validations of `AvailabilityCreate` (day of week in 0..6, end after
start). -/
def create_availability (pid : Nat) (req : AvailabilityCreate) (db : DB) :
    DB × Except ApiError AvailabilitySlot :=
  if ¬ (req.day_of_week ≤ 6) then (db, .error .invalidInput)
  else if ¬ (req.start_time < req.end_time) then (db, .error .invalidInput)
  else if hasSlotOverlap db pid req.day_of_week req.start_time req.end_time then
    (db, .error .conflict)
  else
    let s : AvailabilitySlot := {
      id := freshSlotId db
      provider_id := pid
      day_of_week := req.day_of_week
      start_time := req.start_time
      end_time := req.end_time }
    ({ db with slots := db.slots ++ [s] }, .ok s)

/-- The lookup `provider_availability.select(*).eq("id", sid).eq("provider_id",
pid).single()`. -/
def findSlotForProvider (db : DB) (sid pid : Nat) : Option AvailabilitySlot :=
  db.slots.find? fun s => s.id == sid && s.provider_id == pid

/-- Embedding of `update_availability` (providers/routes.py). The candidate
interval is the updated value where supplied and the stored value otherwise
(stored times arrive as ISO strings, so the `isinstance` branch of the source
resolves to `update.start_time or parsed existing`, and `time` values are
always truthy in Python 3.5+). The empty-update check comes after the overlap
check, as in the source. -/
def update_availability (pid sid : Nat) (upd : AvailabilityUpdate) (db : DB) :
    DB × Except ApiError AvailabilitySlot :=
  match findSlotForProvider db sid pid with
  | none => (db, .error .notFound)
  | some slot =>
    let new_start := upd.start_time.getD slot.start_time
    let new_end := upd.end_time.getD slot.end_time
    if hasOtherSlotOverlap db pid slot.day_of_week sid new_start new_end then
      (db, .error .conflict)
    else if upd.start_time = none ∧ upd.end_time = none then
      (db, .error .invalidInput)
    else
      ({ db with slots := db.slots.map fun s =>
          if s.id == sid then
            { s with start_time := new_start, end_time := new_end }
          else s },
       .ok { slot with start_time := new_start, end_time := new_end })

/-- SQL `AVG(rating)`: `NULL` on the empty set, else the mean. -/
def sqlAvg (l : List ℚ) : Option ℚ :=
  if l.length = 0 then none else some (l.sum / l.length)

/-- The ratings of all reviews of a provider, as rationals. -/
def providerRatings (db : DB) (pid : Nat) : List ℚ :=
  (db.reviews.filter fun r => r.provider_id == pid).map fun r => (r.rating : ℚ)

/-- The `UPDATE provider_profiles SET avg_rating = ... WHERE id = $1` write. -/
def setAvgRating (db : DB) (pid : Nat) (v : Option ℚ) : DB :=
  { db with providers := db.providers.map fun p =>
      if p.id == pid then { p with avg_rating := v } else p }

/-- Embedding of `create_review` (customers/routes.py), including the
pydantic rating bound of `ReviewCreate` (1..5). After the insert the
provider average is recomputed as `AVG(rating)` over all of the provider's
reviews, without `COALESCE`. -/
def create_review (cid : Nat) (req : ReviewCreate) (db : DB) :
    DB × Except ApiError Review :=
  if ¬ (1 ≤ req.rating ∧ req.rating ≤ 5) then (db, .error .invalidInput)
  else
    match findBooking db req.booking_id with
    | none => (db, .error .notFound)
    | some booking =>
      if booking.customer_id ≠ cid then (db, .error .forbidden)
      else if booking.status ≠ .completed then (db, .error .invalidInput)
      else if db.reviews.any (fun r => r.booking_id == req.booking_id) then
        (db, .error .conflict)
      else
        let rv : Review := {
          id := freshReviewId db
          booking_id := req.booking_id
          customer_id := cid
          provider_id := booking.provider_id
          rating := req.rating
          comment := req.comment }
        let db1 : DB := { db with reviews := db.reviews ++ [rv] }
        (setAvgRating db1 booking.provider_id
           (sqlAvg (providerRatings db1 booking.provider_id)), .ok rv)

/-- Embedding of `delete_review` (admins/routes.py). After the delete the
provider average is recomputed as `COALESCE(AVG(rating), 0)` over the
remaining reviews of the provider. -/
def delete_review (rid : Nat) (db : DB) : DB × Except ApiError Unit :=
  match db.reviews.find? (fun r => r.id == rid) with
  | none => (db, .error .notFound)
  | some rv =>
    let db1 : DB := { db with reviews := db.reviews.filter fun r => r.id != rid }
    (setAvgRating db1 rv.provider_id
       (some ((sqlAvg (providerRatings db1 rv.provider_id)).getD 0)), .ok ())

/-- Query parameters of `GET /customers/providers/search`. -/
structure SearchParams where
  latitude : ℚ
  longitude : ℚ
  category_id : Option Nat
  min_rating : Option ℚ
  min_price : Option ℚ
  max_price : Option ℚ
  radius_km : ℚ
  limit : Nat
  offset : Nat
deriving DecidableEq, Repr

/-- A search result row: the provider id and its reported distance in km. -/
structure SearchRow where
  id : Nat
  distance_km : ℚ
deriving DecidableEq, Repr

/-- SQL comparison `col >= v` on a nullable column: `NULL` satisfies nothing. -/
def optGe (x : Option ℚ) (v : ℚ) : Bool :=
  match x with
  | none => false
  | some a => decide (v ≤ a)

/-- SQL comparison `col <= v` on a nullable column: `NULL` satisfies nothing. -/
def optLe (x : Option ℚ) (v : ℚ) : Bool :=
  match x with
  | none => false
  | some a => decide (a ≤ v)

/-- SQL comparison `col = v` on a nullable integer column. -/
def optEqNat (x : Option Nat) (v : Nat) : Bool :=
  match x with
  | none => false
  | some a => a == v

/-- The `WHERE` clause built by `search_providers`: verified, located within
`radius_km * 1000` meters (`ST_DWithin` on geography), and the optional
filters, where the category clause is appended only under Python truthiness
(`if category_id:`) while the others use `is not None`. The surface distance
function of the geography type is a parameter `dist`, in meters. -/
def searchFilter (dist : Point → Point → ℚ) (ps : SearchParams)
    (p : ProviderProfile) : Bool :=
  p.is_verified &&
  (match p.location with
   | none => false
   | some loc => decide (dist loc (ps.longitude, ps.latitude) ≤ ps.radius_km * 1000)) &&
  (match ps.category_id with
   | none => true
   | some c => if c = 0 then true else optEqNat p.category_id c) &&
  (match ps.min_rating with
   | none => true
   | some r => optGe p.avg_rating r) &&
  (match ps.min_price with
   | none => true
   | some r => optGe p.base_price r) &&
  (match ps.max_price with
   | none => true
   | some r => optLe p.base_price r)

/-- The reported `distance_km` column: `ST_Distance(...) / 1000.0`. -/
def rowDistKm (dist : Point → Point → ℚ) (ps : SearchParams)
    (p : ProviderProfile) : ℚ :=
  match p.location with
  | none => 0
  | some loc => dist loc (ps.longitude, ps.latitude) / 1000

/-- Embedding of `search_providers` (customers/routes.py): filter, order by
`distance_km` ascending, then `LIMIT limit OFFSET offset`. -/
def search_providers (dist : Point → Point → ℚ) (ps : SearchParams) (db : DB) :
    List SearchRow :=
  let rows := db.providers.filter (searchFilter dist ps)
  let sorted := rows.mergeSort fun a b =>
    decide (rowDistKm dist ps a ≤ rowDistKm dist ps b)
  ((sorted.drop ps.offset).take ps.limit).map fun p =>
    { id := p.id, distance_km := rowDistKm dist ps p }

/-- Modelled from the spec, section 4.3: retain verified providers with a set
location whose distance in km is within the radius (boundary inclusive),
apply the supplied category, minimum-rating and price filters, sort ascending
by distance and paginate. -/
def specSearchFilter (dist : Point → Point → ℚ) (ps : SearchParams)
    (p : ProviderProfile) : Bool :=
  p.is_verified &&
  (match p.location with
   | none => false
   | some loc => decide (dist loc (ps.longitude, ps.latitude) / 1000 ≤ ps.radius_km)) &&
  (match ps.category_id with
   | none => true
   | some c => optEqNat p.category_id c) &&
  (match ps.min_rating with
   | none => true
   | some r => optGe p.avg_rating r) &&
  (match ps.min_price with
   | none => true
   | some r => optGe p.base_price r) &&
  (match ps.max_price with
   | none => true
   | some r => optLe p.base_price r)

/-- Modelled from the spec, section 4.3: the search algorithm as the spec
words it, to be compared with the embedded `search_providers`. -/
def spec_search_providers (dist : Point → Point → ℚ) (ps : SearchParams)
    (db : DB) : List SearchRow :=
  let rows := db.providers.filter (specSearchFilter dist ps)
  let sorted := rows.mergeSort fun a b =>
    decide (rowDistKm dist ps a ≤ rowDistKm dist ps b)
  ((sorted.drop ps.offset).take ps.limit).map fun p =>
    { id := p.id, distance_km := rowDistKm dist ps p }

/-! Concrete example states used to evaluate the endpoints at closed inputs. -/

/-- A state with one verified provider, a Monday 09:00 to 17:00 slot, and one
pending booking at instant 36000 (Monday 10:00). -/
def dbEx1 : DB := {
  providers := [⟨1, 10, some 2, some 50, true, none, none⟩]
  slots := [⟨1, 1, 1, 32400, 61200⟩]
  bookings := [⟨1, 3, 1, .pending, 36000, "12 Main Street", some 50, none, 0⟩]
  reviews := [] }

/-- A state with a single completed booking, for transition-guard failures. -/
def dbEx2 : DB := {
  providers := [⟨1, 10, some 2, some 50, true, none, none⟩]
  slots := [⟨1, 1, 1, 32400, 61200⟩]
  bookings := [⟨1, 3, 1, .completed, 36000, "12 Main Street", some 50, none, 0⟩]
  reviews := [] }

/-- A state with three completed bookings of one provider and no reviews,
the starting point of the rating scenario of the spec. -/
def dbReviewEx : DB := {
  providers := [⟨1, 10, some 2, some 50, true, none, none⟩]
  slots := []
  bookings := [⟨1, 7, 1, .completed, 100, "12 Main Street", some 50, none, 0⟩,
               ⟨2, 7, 1, .completed, 200, "12 Main Street", some 50, none, 0⟩,
               ⟨3, 7, 1, .completed, 300, "12 Main Street", some 50, none, 0⟩]
  reviews := [] }

/-- The state after reviews rated 5, 3 and 4 on the three completed bookings. -/
def dbReviewEx3 : DB :=
  (create_review 7 ⟨3, 4, none⟩
    ((create_review 7 ⟨2, 3, none⟩
      ((create_review 7 ⟨1, 5, none⟩ dbReviewEx).1)).1)).1

/-- The state after the moderation delete of the rating-3 review (id 1). -/
def dbReviewExDel : DB := (delete_review 1 dbReviewEx3).1

/-- A state with one verified provider whose base price is exactly 0, with a
Monday 09:00 to 17:00 slot and no bookings. -/
def dbZeroPrice : DB := {
  providers := [⟨1, 10, some 2, some 0, true, none, none⟩]
  slots := [⟨1, 1, 1, 32400, 61200⟩]
  bookings := []
  reviews := [] }

/-- A state with one verified provider located at the origin whose
`avg_rating` column is NULL. -/
def dbNullRating : DB := {
  providers := [⟨1, 10, some 2, some 50, true, none, some (0, 0)⟩]
  slots := []
  bookings := []
  reviews := [] }

/-- Baseline search parameters with no optional filters. -/
def psBase : SearchParams := {
  latitude := 0
  longitude := 0
  category_id := none
  min_rating := none
  min_price := none
  max_price := none
  radius_km := 10
  limit := 20
  offset := 0 }

/-- A degenerate distance function for closed evaluations. -/
def zeroDist : Point → Point → ℚ := fun _ _ => 0

/-! Invariants and helper lemmas. -/

/-- Well-formedness: booking primary keys are pairwise distinct. -/
def DistinctBookingIds (db : DB) : Prop := (db.bookings.map Booking.id).Nodup

/-- The spec invariant: for a given provider, at most one booking among the
non-terminal statuses occupies a given scheduled instant (bookings are
identified by primary key). -/
def UniqueNonTerminal (db : DB) : Prop :=
  ∀ b1 ∈ db.bookings, ∀ b2 ∈ db.bookings,
    b1.provider_id = b2.provider_id → b1.scheduled_for = b2.scheduled_for →
    b1.status.nonTerminal = true → b2.status.nonTerminal = true → b1.id = b2.id

/-- The full booking-table invariant preserved by the lifecycle operations. -/
def BookingInv (db : DB) : Prop := DistinctBookingIds db ∧ UniqueNonTerminal db

lemma foldr_max_id_lt (l : List Booking) :
    ∀ b ∈ l, b.id < l.foldr (fun b m => max (b.id + 1) m) 0 := by
  induction l with
  | nil => simp
  | cons x xs ih =>
    intro b hb
    rcases List.mem_cons.mp hb with rfl | hb
    · simp only [List.foldr]; omega
    · have := ih b hb
      simp only [List.foldr]
      omega

lemma freshBookingId_gt (db : DB) : ∀ b ∈ db.bookings, b.id < freshBookingId db :=
  foldr_max_id_lt db.bookings

lemma not_conflict (db : DB) (pid : Nat) (t : Instant)
    (h : hasBookingConflict db pid t = false) (b : Booking)
    (hb : b ∈ db.bookings) (hp : b.provider_id = pid)
    (hnt : b.status.nonTerminal = true) (ht : b.scheduled_for = t) : False := by
  rw [hasBookingConflict, List.any_eq_false] at h
  have := h b hb
  simp [hp, hnt, ht] at this

lemma not_other_conflict (db : DB) (pid bid : Nat) (t : Instant)
    (h : hasOtherBookingConflict db pid bid t = false) (b : Booking)
    (hb : b ∈ db.bookings) (hp : b.provider_id = pid) (hid : b.id ≠ bid)
    (hnt : b.status.nonTerminal = true) (ht : b.scheduled_for = t) : False := by
  rw [hasOtherBookingConflict, List.any_eq_false] at h
  have := h b hb
  simp [hp, hnt, ht, hid] at this

lemma booking_eq_of_id_eq {db : DB} (h : DistinctBookingIds db) {a b : Booking}
    (ha : a ∈ db.bookings) (hb : b ∈ db.bookings) (hid : a.id = b.id) : a = b :=
  List.inj_on_of_nodup_map h ha hb hid

lemma find_booking_provider_mem {db : DB} {bid pid : Nat} {b : Booking}
    (h : findBookingForProvider db bid pid = some b) :
    b ∈ db.bookings ∧ b.id = bid ∧ b.provider_id = pid := by
  have hmem := List.mem_of_find?_eq_some h
  have hp := List.find?_some h
  simp only [Bool.and_eq_true, beq_iff_eq] at hp
  exact ⟨hmem, hp.1, hp.2⟩

lemma find_booking_customer_mem {db : DB} {bid cid : Nat} {b : Booking}
    (h : findBookingForCustomer db bid cid = some b) :
    b ∈ db.bookings ∧ b.id = bid ∧ b.customer_id = cid := by
  have hmem := List.mem_of_find?_eq_some h
  have hp := List.find?_some h
  simp only [Bool.and_eq_true, beq_iff_eq] at hp
  exact ⟨hmem, hp.1, hp.2⟩

lemma setStatus_ids (db : DB) (bid : Nat) (st : BookingStatus) :
    (setStatus db bid st).bookings.map Booking.id = db.bookings.map Booking.id := by
  simp only [setStatus, List.map_map]
  apply List.map_congr_left
  intro b _
  by_cases h : b.id = bid <;> simp [h]

lemma nodup_map_update (f : Booking → Booking) (hf : ∀ b, (f b).id = b.id)
    (l : List Booking) (h : (l.map Booking.id).Nodup) :
    ((l.map f).map Booking.id).Nodup := by
  rw [List.map_map]
  have : ∀ b ∈ l, (Booking.id ∘ f) b = Booking.id b := fun b _ => hf b
  rw [List.map_congr_left this]
  exact h

lemma inv_setStatus_terminal {db : DB} {bid : Nat} {st : BookingStatus}
    (hinv : BookingInv db) (hterm : st.nonTerminal = false) :
    BookingInv (setStatus db bid st) := by
  constructor
  · unfold DistinctBookingIds
    rw [setStatus_ids]
    exact hinv.1
  · intro b1 h1 b2 h2 hp hs hn1 hn2
    simp only [setStatus] at h1 h2
    obtain ⟨a1, ha1, rfl⟩ := List.mem_map.mp h1
    obtain ⟨a2, ha2, rfl⟩ := List.mem_map.mp h2
    by_cases e1 : a1.id = bid
    · simp only [e1, beq_self_eq_true, if_pos] at hn1
      simp only [hterm] at hn1
      cases hn1
    · by_cases e2 : a2.id = bid
      · simp only [e2, beq_self_eq_true, if_pos] at hn2
        simp only [hterm] at hn2
        cases hn2
      · simp only [beq_iff_eq, e1, e2, if_neg, if_false] at hp hs hn1 hn2 ⊢
        exact hinv.2 a1 ha1 a2 ha2 hp hs hn1 hn2

lemma inv_create_booking {db : DB} (now : Instant) (cid : Nat)
    (req : BookingCreate) (hinv : BookingInv db) :
    BookingInv (create_booking now cid req db).1 := by
  unfold create_booking
  split
  · exact hinv
  · split
    · exact hinv
    · next provider hfind =>
      split
      · exact hinv
      · split
        · exact hinv
        · next hver hconf =>
          split
          · exact hinv
          · next hav =>
            rw [Bool.not_eq_true] at hconf
            dsimp only
            constructor
            · unfold DistinctBookingIds
              simp only [List.map_append, List.map_cons, List.map_nil]
              rw [List.nodup_append]
              refine ⟨hinv.1, List.nodup_singleton _, ?_⟩
              intro x hx hy
              simp only [List.mem_singleton] at hy
              obtain ⟨b, hb, rfl⟩ := List.mem_map.mp hx
              exact absurd hy (Nat.ne_of_lt (freshBookingId_gt db b hb))
            · intro b1 h1 b2 h2 hp hs hn1 hn2
              simp only [List.mem_append, List.mem_singleton] at h1 h2
              rcases h1 with h1 | rfl <;> rcases h2 with h2 | rfl
              · exact hinv.2 b1 h1 b2 h2 hp hs hn1 hn2
              · exact (not_conflict db req.provider_id req.scheduled_for hconf
                  b1 h1 (by simpa using hp) hn1 (by simpa using hs)).elim
              · exact (not_conflict db req.provider_id req.scheduled_for hconf
                  b2 h2 (by simpa using hp.symm) hn2 (by simpa using hs.symm)).elim
              · rfl

lemma inv_accept_booking {db : DB} (pid bid : Nat) (hinv : BookingInv db) :
    BookingInv (accept_booking pid bid db).1 := by
  unfold accept_booking
  split
  · exact hinv
  · next b hfind =>
    split
    · exact hinv
    · next hst =>
      split
      · exact hinv
      · next hconf =>
        rw [Bool.not_eq_true] at hconf
        dsimp only
        obtain ⟨hbmem, hbid, hbpid⟩ := find_booking_provider_mem hfind
        constructor
        · unfold DistinctBookingIds
          rw [setStatus_ids]
          exact hinv.1
        · intro b1 h1 b2 h2 hp hs hn1 hn2
          simp only [setStatus] at h1 h2
          obtain ⟨a1, ha1, rfl⟩ := List.mem_map.mp h1
          obtain ⟨a2, ha2, rfl⟩ := List.mem_map.mp h2
          by_cases e1 : a1.id = bid <;> by_cases e2 : a2.id = bid
          · simp only [beq_iff_eq, e1, e2, if_pos]
          · exfalso
            have ha1b : a1 = b := booking_eq_of_id_eq hinv.1 ha1 hbmem (e1.trans hbid.symm)
            subst ha1b
            simp only [beq_iff_eq, e1, if_pos, e2, if_neg, if_false] at hp hs hn2
            exact not_other_conflict db pid bid a1.scheduled_for hconf a2 ha2
              (by rw [← hp]; exact hbpid) e2 hn2 (by rw [← hs])
          · exfalso
            have ha2b : a2 = b := booking_eq_of_id_eq hinv.1 ha2 hbmem (e2.trans hbid.symm)
            subst ha2b
            simp only [beq_iff_eq, e2, if_pos, e1, if_neg, if_false] at hp hs hn1
            exact not_other_conflict db pid bid a2.scheduled_for hconf a1 ha1
              (by rw [hp]; exact hbpid) e1 hn1 (by rw [hs])
          · simp only [beq_iff_eq, e1, e2, if_neg, if_false] at hp hs hn1 hn2 ⊢
            exact hinv.2 a1 ha1 a2 ha2 hp hs hn1 hn2

lemma inv_reschedule_booking {db : DB} (now : Instant) (pid bid : Nat)
    (newTime : Instant) (hinv : BookingInv db) :
    BookingInv (reschedule_booking now pid bid newTime db).1 := by
  unfold reschedule_booking
  split
  · exact hinv
  · split
    · exact hinv
    · next b hfind =>
      split
      · exact hinv
      · next hst =>
        split
        · exact hinv
        · next hconf =>
          split
          · exact hinv
          · next hav =>
            rw [Bool.not_eq_true] at hconf
            obtain ⟨hbmem, hbid, hbpid⟩ := find_booking_provider_mem hfind
            dsimp only
            constructor
            · unfold DistinctBookingIds
              dsimp only
              exact nodup_map_update _
                (fun b2 => by by_cases h : b2.id = bid <;> simp [h]) _ hinv.1
            · intro b1 h1 b2 h2 hp hs hn1 hn2
              simp only at h1 h2
              obtain ⟨a1, ha1, rfl⟩ := List.mem_map.mp h1
              obtain ⟨a2, ha2, rfl⟩ := List.mem_map.mp h2
              by_cases e1 : a1.id = bid <;> by_cases e2 : a2.id = bid
              · simp only [beq_iff_eq, e1, e2, if_pos]
              · exfalso
                have ha1b : a1 = b := booking_eq_of_id_eq hinv.1 ha1 hbmem (e1.trans hbid.symm)
                subst ha1b
                simp only [beq_iff_eq, e1, if_pos, e2, if_neg, if_false] at hp hs hn2
                exact not_other_conflict db pid bid newTime hconf a2 ha2
                  (by rw [← hp]; exact hbpid) e2 hn2 (by rw [← hs])
              · exfalso
                have ha2b : a2 = b := booking_eq_of_id_eq hinv.1 ha2 hbmem (e2.trans hbid.symm)
                subst ha2b
                simp only [beq_iff_eq, e2, if_pos, e1, if_neg, if_false] at hp hs hn1
                exact not_other_conflict db pid bid newTime hconf a1 ha1
                  (by rw [hp]; exact hbpid) e1 hn1 (by rw [hs])
              · simp only [beq_iff_eq, e1, e2, if_neg, if_false] at hp hs hn1 hn2 ⊢
                exact hinv.2 a1 ha1 a2 ha2 hp hs hn1 hn2

lemma inv_reject_booking {db : DB} (pid bid : Nat) (hinv : BookingInv db) :
    BookingInv (reject_booking pid bid db).1 := by
  unfold reject_booking
  split
  · exact hinv
  · split
    · exact hinv
    · exact inv_setStatus_terminal hinv rfl

lemma inv_complete_booking {db : DB} (pid bid : Nat) (hinv : BookingInv db) :
    BookingInv (complete_booking pid bid db).1 := by
  unfold complete_booking
  split
  · exact hinv
  · split
    · exact hinv
    · exact inv_setStatus_terminal hinv rfl

lemma inv_cancel_booking {db : DB} (cid bid : Nat) (hinv : BookingInv db) :
    BookingInv (cancel_booking cid bid db).1 := by
  unfold cancel_booking
  split
  · exact hinv
  · split
    · exact hinv
    · exact inv_setStatus_terminal hinv rfl

lemma codeOverlap_eq_specOverlap {s e cs ce : Nat} (hse : s < e) (hc : cs < ce) :
    codeOverlap s e cs ce = specOverlap s e cs ce := by
  unfold codeOverlap specOverlap
  rw [Bool.eq_iff_iff]
  simp only [Bool.or_eq_true, Bool.and_eq_true, decide_eq_true_eq]
  omega

lemma hasSlotOverlap_iff (db : DB) (pid day cs ce : Nat) (hc : cs < ce)
    (hwf : ∀ sl ∈ db.slots, sl.start_time < sl.end_time) :
    hasSlotOverlap db pid day cs ce = true ↔
      ∃ sl ∈ db.slots, sl.provider_id = pid ∧ sl.day_of_week = day ∧
        specOverlap sl.start_time sl.end_time cs ce = true := by
  unfold hasSlotOverlap
  rw [List.any_eq_true]
  constructor
  · rintro ⟨sl, hmem, hp⟩
    simp only [Bool.and_eq_true, beq_iff_eq] at hp
    exact ⟨sl, hmem, hp.1.1, hp.1.2,
      by rw [← codeOverlap_eq_specOverlap (hwf sl hmem) hc]; exact hp.2⟩
  · rintro ⟨sl, hmem, h1, h2, h3⟩
    refine ⟨sl, hmem, ?_⟩
    simp only [Bool.and_eq_true, beq_iff_eq]
    exact ⟨⟨h1, h2⟩, by rw [codeOverlap_eq_specOverlap (hwf sl hmem) hc]; exact h3⟩

lemma hasOtherSlotOverlap_iff (db : DB) (pid day sid cs ce : Nat) (hc : cs < ce)
    (hwf : ∀ sl ∈ db.slots, sl.start_time < sl.end_time) :
    hasOtherSlotOverlap db pid day sid cs ce = true ↔
      ∃ sl ∈ db.slots, sl.provider_id = pid ∧ sl.day_of_week = day ∧ sl.id ≠ sid ∧
        specOverlap sl.start_time sl.end_time cs ce = true := by
  unfold hasOtherSlotOverlap
  rw [List.any_eq_true]
  constructor
  · rintro ⟨sl, hmem, hp⟩
    simp only [Bool.and_eq_true, beq_iff_eq, bne_iff_ne, ne_eq] at hp
    exact ⟨sl, hmem, hp.1.1.1, hp.1.1.2, hp.1.2,
      by rw [← codeOverlap_eq_specOverlap (hwf sl hmem) hc]; exact hp.2⟩
  · rintro ⟨sl, hmem, h1, h2, h3, h4⟩
    refine ⟨sl, hmem, ?_⟩
    simp only [Bool.and_eq_true, beq_iff_eq, bne_iff_ne, ne_eq]
    exact ⟨⟨⟨h1, h2⟩, h3⟩,
      by rw [codeOverlap_eq_specOverlap (hwf sl hmem) hc]; exact h4⟩

lemma create_availability_conflict_iff (db : DB) (pid : Nat)
    (req : AvailabilityCreate) (hday : req.day_of_week ≤ 6)
    (hreq : req.start_time < req.end_time)
    (hwf : ∀ sl ∈ db.slots, sl.start_time < sl.end_time) :
    (create_availability pid req db).2 = .error .conflict ↔
      ∃ sl ∈ db.slots, sl.provider_id = pid ∧ sl.day_of_week = req.day_of_week ∧
        specOverlap sl.start_time sl.end_time req.start_time req.end_time = true := by
  unfold create_availability
  rw [if_neg (fun h => h hday), if_neg (fun h => h hreq)]
  by_cases hov : hasSlotOverlap db pid req.day_of_week req.start_time req.end_time = true
  · rw [if_pos hov]
    simpa using (hasSlotOverlap_iff db pid _ _ _ hreq hwf).mp hov
  · rw [if_neg hov]
    constructor
    · intro h
      simp at h
    · intro h
      exact absurd ((hasSlotOverlap_iff db pid _ _ _ hreq hwf).mpr h) hov

lemma update_availability_conflict_iff (db : DB) (pid sid : Nat)
    (upd : AvailabilityUpdate) (slot : AvailabilitySlot)
    (hfind : findSlotForProvider db sid pid = some slot)
    (hwf : ∀ sl ∈ db.slots, sl.start_time < sl.end_time)
    (hc : upd.start_time.getD slot.start_time < upd.end_time.getD slot.end_time) :
    (update_availability pid sid upd db).2 = .error .conflict ↔
      ∃ sl ∈ db.slots, sl.provider_id = pid ∧ sl.day_of_week = slot.day_of_week ∧
        sl.id ≠ sid ∧ specOverlap sl.start_time sl.end_time
          (upd.start_time.getD slot.start_time)
          (upd.end_time.getD slot.end_time) = true := by
  unfold update_availability
  rw [hfind]
  dsimp only
  by_cases hov : hasOtherSlotOverlap db pid slot.day_of_week sid
      (upd.start_time.getD slot.start_time) (upd.end_time.getD slot.end_time) = true
  · rw [if_pos hov]
    simpa using (hasOtherSlotOverlap_iff db pid _ _ _ _ hc hwf).mp hov
  · rw [if_neg hov]
    constructor
    · intro h
      split at h <;> simp at h
    · intro h
      exact absurd ((hasOtherSlotOverlap_iff db pid _ _ _ _ hc hwf).mpr h) hov

/-- C4: the SQL overlap disjunction of `create_availability` and
`update_availability` is, for slots with `end > start` and candidates with
`ce > cs`, equivalent to the standard half-open overlap test of the spec;
boundary-touching candidates are accepted, and each of the two endpoints
signals Conflict exactly when some existing slot of the provider and day
(the updated slot excluded by id on update) overlaps in the spec sense. -/
theorem C4_overlap_refinement :
    (∀ s e cs ce : Nat, s < e → cs < ce →
      codeOverlap s e cs ce = specOverlap s e cs ce ∧
      (cs = e → codeOverlap s e cs ce = false) ∧
      (ce = s → codeOverlap s e cs ce = false)) ∧
    (∀ db pid (req : AvailabilityCreate), req.day_of_week ≤ 6 →
      req.start_time < req.end_time →
      (∀ sl ∈ db.slots, sl.start_time < sl.end_time) →
      ((create_availability pid req db).2 = .error .conflict ↔
        ∃ sl ∈ db.slots, sl.provider_id = pid ∧
          sl.day_of_week = req.day_of_week ∧
          specOverlap sl.start_time sl.end_time req.start_time req.end_time = true)) ∧
    (∀ db pid sid upd slot, findSlotForProvider db sid pid = some slot →
      (∀ sl ∈ db.slots, sl.start_time < sl.end_time) →
      upd.start_time.getD slot.start_time < upd.end_time.getD slot.end_time →
      ((update_availability pid sid upd db).2 = .error .conflict ↔
        ∃ sl ∈ db.slots, sl.provider_id = pid ∧ sl.day_of_week = slot.day_of_week ∧
          sl.id ≠ sid ∧ specOverlap sl.start_time sl.end_time
            (upd.start_time.getD slot.start_time)
            (upd.end_time.getD slot.end_time) = true)) := by
  refine ⟨fun s e cs ce hse hc => ⟨codeOverlap_eq_specOverlap hse hc, ?_, ?_⟩,
    fun db pid req hday hreq hwf =>
      create_availability_conflict_iff db pid req hday hreq hwf,
    fun db pid sid upd slot hfind hwf hc =>
      update_availability_conflict_iff db pid sid upd slot hfind hwf hc⟩
  · intro hcs
    subst hcs
    rw [codeOverlap_eq_specOverlap hse hc]
    unfold specOverlap
    simp only [Bool.and_eq_false_iff, decide_eq_false_iff_not]
    omega
  · intro hce
    subst hce
    rw [codeOverlap_eq_specOverlap hse hc]
    unfold specOverlap
    simp only [Bool.and_eq_false_iff, decide_eq_false_iff_not]
    omega

/-- C5: `create_booking` and `reschedule_booking` reject any request whose
(new) scheduled instant is not strictly in the future with the validation
error and leave the state unchanged, and a strictly future instant is never
rejected by this precondition. -/
theorem C5_future_instant_required :
    (∀ now cid (req : BookingCreate) (db : DB), req.scheduled_for ≤ now →
      create_booking now cid req db = (db, .error .invalidInput)) ∧
    (∀ now cid (req : BookingCreate) (db : DB), now < req.scheduled_for →
      (create_booking now cid req db).2 ≠ Except.error ApiError.invalidInput) ∧
    (∀ now pid bid (t : Instant) (db : DB), t ≤ now →
      reschedule_booking now pid bid t db = (db, .error .invalidInput)) ∧
    (∀ now pid bid (t : Instant) (db : DB), now < t →
      (reschedule_booking now pid bid t db).2 ≠ Except.error ApiError.invalidInput) := by
  refine ⟨?_, ?_, ?_, ?_⟩
  · intro now cid req db h
    have hc : ¬ scheduled_for_must_be_future now req.scheduled_for = true := by
      simp only [scheduled_for_must_be_future, decide_eq_true_eq, Nat.not_lt]
      exact h
    unfold create_booking
    rw [if_pos hc]
  · intro now cid req db h
    have hfut : scheduled_for_must_be_future now req.scheduled_for = true := by
      simpa [scheduled_for_must_be_future] using h
    unfold create_booking
    rw [if_neg (fun hh => hh hfut)]
    split
    · simp
    · split
      · simp
      · split
        · simp
        · split
          · simp
          · simp
  · intro now pid bid t db h
    have hc : ¬ scheduled_for_must_be_future now t = true := by
      simp only [scheduled_for_must_be_future, decide_eq_true_eq, Nat.not_lt]
      exact h
    unfold reschedule_booking
    rw [if_pos hc]
  · intro now pid bid t db h
    have hfut : scheduled_for_must_be_future now t = true := by
      simpa [scheduled_for_must_be_future] using h
    unfold reschedule_booking
    rw [if_neg (fun hh => hh hfut)]
    split
    · simp
    · split
      · simp
      · split
        · simp
        · split
          · simp
          · simp

/-- C2: each lifecycle transition is guarded by the status table of the spec:
accept and reject succeed only from pending, complete only from confirmed or
rescheduled, reschedule only from pending, confirmed or rescheduled, and the
customer cancel only from pending or confirmed; from any other current
status the operation returns the transition error carrying the current
status and leaves the state unchanged. -/
theorem C2_transition_guards (db : DB) :
    (∀ pid bid b, findBookingForProvider db bid pid = some b →
      b.status ≠ .pending →
      accept_booking pid bid db = (db, .error (.invalidTransition b.status))) ∧
    (∀ pid bid db2 r, accept_booking pid bid db = (db2, .ok r) →
      ∃ b, findBookingForProvider db bid pid = some b ∧ b.status = .pending) ∧
    (∀ pid bid b, findBookingForProvider db bid pid = some b →
      b.status ≠ .pending →
      reject_booking pid bid db = (db, .error (.invalidTransition b.status))) ∧
    (∀ pid bid db2 r, reject_booking pid bid db = (db2, .ok r) →
      ∃ b, findBookingForProvider db bid pid = some b ∧ b.status = .pending) ∧
    (∀ pid bid b, findBookingForProvider db bid pid = some b →
      ¬ (b.status = .confirmed ∨ b.status = .rescheduled) →
      complete_booking pid bid db = (db, .error (.invalidTransition b.status))) ∧
    (∀ pid bid db2 r, complete_booking pid bid db = (db2, .ok r) →
      ∃ b, findBookingForProvider db bid pid = some b ∧
        (b.status = .confirmed ∨ b.status = .rescheduled)) ∧
    (∀ now pid bid t b, scheduled_for_must_be_future now t = true →
      findBookingForProvider db bid pid = some b →
      ¬ (b.status = .pending ∨ b.status = .confirmed ∨ b.status = .rescheduled) →
      reschedule_booking now pid bid t db =
        (db, .error (.invalidTransition b.status))) ∧
    (∀ now pid bid t db2 r, reschedule_booking now pid bid t db = (db2, .ok r) →
      ∃ b, findBookingForProvider db bid pid = some b ∧
        (b.status = .pending ∨ b.status = .confirmed ∨ b.status = .rescheduled)) ∧
    (∀ cid bid b, findBookingForCustomer db bid cid = some b →
      ¬ (b.status = .pending ∨ b.status = .confirmed) →
      cancel_booking cid bid db = (db, .error (.invalidTransition b.status))) ∧
    (∀ cid bid db2 r, cancel_booking cid bid db = (db2, .ok r) →
      ∃ b, findBookingForCustomer db bid cid = some b ∧
        (b.status = .pending ∨ b.status = .confirmed)) := by
  refine ⟨?_, ?_, ?_, ?_, ?_, ?_, ?_, ?_, ?_, ?_⟩
  · intro pid bid b hfind hst
    unfold accept_booking
    rw [hfind]
    dsimp only
    rw [if_pos hst]
  · intro pid bid db2 r h
    unfold accept_booking at h
    split at h
    · exact absurd (congrArg Prod.snd h) (by simp)
    · next b hfind =>
      split at h
      · exact absurd (congrArg Prod.snd h) (by simp)
      · next hst =>
        split at h
        · exact absurd (congrArg Prod.snd h) (by simp)
        · exact ⟨b, hfind, not_not.mp hst⟩
  · intro pid bid b hfind hst
    unfold reject_booking
    rw [hfind]
    dsimp only
    rw [if_pos hst]
  · intro pid bid db2 r h
    unfold reject_booking at h
    split at h
    · exact absurd (congrArg Prod.snd h) (by simp)
    · next b hfind =>
      split at h
      · exact absurd (congrArg Prod.snd h) (by simp)
      · next hst => exact ⟨b, hfind, not_not.mp hst⟩
  · intro pid bid b hfind hst
    unfold complete_booking
    rw [hfind]
    dsimp only
    rw [if_pos hst]
  · intro pid bid db2 r h
    unfold complete_booking at h
    split at h
    · exact absurd (congrArg Prod.snd h) (by simp)
    · next b hfind =>
      split at h
      · exact absurd (congrArg Prod.snd h) (by simp)
      · next hst => exact ⟨b, hfind, not_not.mp hst⟩
  · intro now pid bid t b hfut hfind hst
    unfold reschedule_booking
    rw [if_neg (fun hh => hh hfut), hfind]
    dsimp only
    rw [if_pos hst]
  · intro now pid bid t db2 r h
    unfold reschedule_booking at h
    split at h
    · exact absurd (congrArg Prod.snd h) (by simp)
    · split at h
      · exact absurd (congrArg Prod.snd h) (by simp)
      · next b hfind =>
        split at h
        · exact absurd (congrArg Prod.snd h) (by simp)
        · next hst =>
          split at h
          · exact absurd (congrArg Prod.snd h) (by simp)
          · split at h
            · exact absurd (congrArg Prod.snd h) (by simp)
            · exact ⟨b, hfind, not_not.mp hst⟩
  · intro cid bid b hfind hst
    unfold cancel_booking
    rw [hfind]
    dsimp only
    rw [if_pos hst]
  · intro cid bid db2 r h
    unfold cancel_booking at h
    split at h
    · exact absurd (congrArg Prod.snd h) (by simp)
    · next b hfind =>
      split at h
      · exact absurd (congrArg Prod.snd h) (by simp)
      · next hst => exact ⟨b, hfind, not_not.mp hst⟩

lemma hasAvailability_iff (db : DB) (pid : Nat) (t : Instant) :
    hasAvailability db pid t = true ↔
      ∃ s ∈ db.slots, s.provider_id = pid ∧ s.day_of_week = dbDay t ∧
        s.start_time ≤ timeOfDay t ∧ timeOfDay t ≤ s.end_time := by
  unfold hasAvailability
  rw [List.any_eq_true]
  constructor
  · rintro ⟨s, hmem, hp⟩
    simp only [Bool.and_eq_true, beq_iff_eq, decide_eq_true_eq] at hp
    exact ⟨s, hmem, hp.1.1.1, hp.1.1.2, hp.1.2, hp.2⟩
  · rintro ⟨s, hmem, h1, h2, h3, h4⟩
    refine ⟨s, hmem, ?_⟩
    simp only [Bool.and_eq_true, beq_iff_eq, decide_eq_true_eq]
    exact ⟨⟨⟨h1, h2⟩, h3⟩, h4⟩

/-- C3: `create_booking` and `reschedule_booking` derive the weekday of the
(new) instant in the Sunday = 0 convention and succeed only when some
availability slot of the target provider for that weekday brackets the time
of day inclusively; when no such slot exists and the remaining guards hold
they fail with the out-of-availability error and leave the state unchanged. -/
theorem C3_availability_window_required :
    (∀ now cid (req : BookingCreate) (db db2 : DB) bk,
      create_booking now cid req db = (db2, .ok bk) →
      ∃ s ∈ db.slots, s.provider_id = req.provider_id ∧
        s.day_of_week = dbDay req.scheduled_for ∧
        s.start_time ≤ timeOfDay req.scheduled_for ∧
        timeOfDay req.scheduled_for ≤ s.end_time) ∧
    (∀ now cid (req : BookingCreate) (db : DB) p,
      scheduled_for_must_be_future now req.scheduled_for = true →
      findProvider db req.provider_id = some p → p.is_verified = true →
      hasBookingConflict db req.provider_id req.scheduled_for = false →
      hasAvailability db req.provider_id req.scheduled_for = false →
      create_booking now cid req db = (db, .error .outOfAvailability)) ∧
    (∀ now pid bid (t : Instant) (db db2 : DB) bk,
      reschedule_booking now pid bid t db = (db2, .ok bk) →
      ∃ s ∈ db.slots, s.provider_id = pid ∧ s.day_of_week = dbDay t ∧
        s.start_time ≤ timeOfDay t ∧ timeOfDay t ≤ s.end_time) ∧
    (∀ now pid bid (t : Instant) (db : DB) b,
      scheduled_for_must_be_future now t = true →
      findBookingForProvider db bid pid = some b →
      (b.status = .pending ∨ b.status = .confirmed ∨ b.status = .rescheduled) →
      hasOtherBookingConflict db pid bid t = false →
      hasAvailability db pid t = false →
      reschedule_booking now pid bid t db = (db, .error .outOfAvailability)) := by
  refine ⟨?_, ?_, ?_, ?_⟩
  · intro now cid req db db2 bk h
    unfold create_booking at h
    split at h
    · exact absurd (congrArg Prod.snd h) (by simp)
    · split at h
      · exact absurd (congrArg Prod.snd h) (by simp)
      · split at h
        · exact absurd (congrArg Prod.snd h) (by simp)
        · split at h
          · exact absurd (congrArg Prod.snd h) (by simp)
          · split at h
            · exact absurd (congrArg Prod.snd h) (by simp)
            · next hav =>
              exact (hasAvailability_iff db req.provider_id req.scheduled_for).mp
                (not_not.mp hav)
  · intro now cid req db p hfut hp hver hconf hav
    unfold create_booking
    rw [if_neg (fun hh => hh hfut), hp]
    dsimp only
    rw [if_neg (fun hh => hh hver), if_neg (by simp [hconf]), if_pos (by simp [hav])]
  · intro now pid bid t db db2 bk h
    unfold reschedule_booking at h
    split at h
    · exact absurd (congrArg Prod.snd h) (by simp)
    · split at h
      · exact absurd (congrArg Prod.snd h) (by simp)
      · split at h
        · exact absurd (congrArg Prod.snd h) (by simp)
        · split at h
          · exact absurd (congrArg Prod.snd h) (by simp)
          · split at h
            · exact absurd (congrArg Prod.snd h) (by simp)
            · next hav =>
              exact (hasAvailability_iff db pid t).mp (not_not.mp hav)
  · intro now pid bid t db b hfut hfind hguard hconf hav
    unfold reschedule_booking
    rw [if_neg (fun hh => hh hfut), hfind]
    dsimp only
    rw [if_neg (not_not_intro hguard), if_neg (by simp [hconf]),
      if_pos (by simp [hav])]

/-- C7: `create_review` requires, in order, an existing booking, ownership by
the requesting customer, status exactly completed, and no prior review of the
booking; it fails with the not-found, forbidden, validation and conflict
errors respectively, every failure leaves the state unchanged, and success
implies all four guards held. -/
theorem C7_review_creation_guards (db : DB) (cid : Nat) (req : ReviewCreate)
    (hr1 : 1 ≤ req.rating) (hr5 : req.rating ≤ 5) :
    (findBooking db req.booking_id = none →
      create_review cid req db = (db, .error .notFound)) ∧
    (∀ b, findBooking db req.booking_id = some b → b.customer_id ≠ cid →
      create_review cid req db = (db, .error .forbidden)) ∧
    (∀ b, findBooking db req.booking_id = some b → b.customer_id = cid →
      b.status ≠ .completed →
      create_review cid req db = (db, .error .invalidInput)) ∧
    (∀ b, findBooking db req.booking_id = some b → b.customer_id = cid →
      b.status = .completed → (∃ r ∈ db.reviews, r.booking_id = req.booking_id) →
      create_review cid req db = (db, .error .conflict)) ∧
    (∀ db2 rv, create_review cid req db = (db2, .ok rv) →
      ∃ b, findBooking db req.booking_id = some b ∧ b.customer_id = cid ∧
        b.status = .completed ∧ ∀ r ∈ db.reviews, r.booking_id ≠ req.booking_id) ∧
    (∀ e (db2 : DB), create_review cid req db = (db2, .error e) → db2 = db) := by
  have hrate : ¬¬ (1 ≤ req.rating ∧ req.rating ≤ 5) := not_not_intro ⟨hr1, hr5⟩
  refine ⟨?_, ?_, ?_, ?_, ?_, ?_⟩
  · intro hnone
    unfold create_review
    rw [if_neg hrate, hnone]
  · intro b hfind hcust
    unfold create_review
    rw [if_neg hrate, hfind]
    dsimp only
    rw [if_pos hcust]
  · intro b hfind hcust hst
    unfold create_review
    rw [if_neg hrate, hfind]
    dsimp only
    rw [if_neg (not_not_intro hcust), if_pos hst]
  · intro b hfind hcust hst hex
    unfold create_review
    rw [if_neg hrate, hfind]
    dsimp only
    rw [if_neg (not_not_intro hcust), if_neg (not_not_intro hst), if_pos]
    rw [List.any_eq_true]
    obtain ⟨r, hr, hb⟩ := hex
    exact ⟨r, hr, by simpa using hb⟩
  · intro db2 rv h
    unfold create_review at h
    split at h
    · exact absurd (congrArg Prod.snd h) (by simp)
    · split at h
      · exact absurd (congrArg Prod.snd h) (by simp)
      · next b hfind =>
        split at h
        · exact absurd (congrArg Prod.snd h) (by simp)
        · next hcust =>
          split at h
          · exact absurd (congrArg Prod.snd h) (by simp)
          · next hst =>
            split at h
            · exact absurd (congrArg Prod.snd h) (by simp)
            · next hex =>
              refine ⟨b, hfind, not_not.mp hcust, not_not.mp hst, ?_⟩
              intro r hr
              have := List.any_eq_false.mp (Bool.eq_false_iff.mpr hex) r hr
              simpa using this
  · intro e db2 h
    unfold create_review at h
    split at h
    · exact (congrArg Prod.fst h).symm
    · split at h
      · exact (congrArg Prod.fst h).symm
      · split at h
        · exact (congrArg Prod.fst h).symm
        · split at h
          · exact (congrArg Prod.fst h).symm
          · split at h
            · exact (congrArg Prod.fst h).symm
            · exact absurd (congrArg Prod.snd h) (by simp)

/-- C1: at most one booking of a provider at a given exact instant is in a
non-terminal status. The three writing operations refuse with Conflict when
a colliding non-terminal booking exists (for accept and reschedule, one with
a different id), and every lifecycle operation preserves the uniqueness
invariant together with primary-key distinctness, so every reachable state
satisfies it. -/
theorem C1_exact_instant_uniqueness (db : DB) (hinv : BookingInv db) :
    (∀ now cid (req : BookingCreate) p,
      scheduled_for_must_be_future now req.scheduled_for = true →
      findProvider db req.provider_id = some p → p.is_verified = true →
      hasBookingConflict db req.provider_id req.scheduled_for = true →
      create_booking now cid req db = (db, .error .conflict)) ∧
    (∀ pid bid b, findBookingForProvider db bid pid = some b →
      b.status = .pending →
      hasOtherBookingConflict db pid bid b.scheduled_for = true →
      accept_booking pid bid db = (db, .error .conflict)) ∧
    (∀ now pid bid (t : Instant) b,
      scheduled_for_must_be_future now t = true →
      findBookingForProvider db bid pid = some b →
      (b.status = .pending ∨ b.status = .confirmed ∨ b.status = .rescheduled) →
      hasOtherBookingConflict db pid bid t = true →
      reschedule_booking now pid bid t db = (db, .error .conflict)) ∧
    (∀ now cid (req : BookingCreate),
      BookingInv (create_booking now cid req db).1) ∧
    (∀ pid bid, BookingInv (accept_booking pid bid db).1) ∧
    (∀ now pid bid (t : Instant),
      BookingInv (reschedule_booking now pid bid t db).1) ∧
    (∀ pid bid, BookingInv (reject_booking pid bid db).1) ∧
    (∀ pid bid, BookingInv (complete_booking pid bid db).1) ∧
    (∀ cid bid, BookingInv (cancel_booking cid bid db).1) := by
  refine ⟨?_, ?_, ?_,
    fun now cid req => inv_create_booking now cid req hinv,
    fun pid bid => inv_accept_booking pid bid hinv,
    fun now pid bid t => inv_reschedule_booking now pid bid t hinv,
    fun pid bid => inv_reject_booking pid bid hinv,
    fun pid bid => inv_complete_booking pid bid hinv,
    fun cid bid => inv_cancel_booking cid bid hinv⟩
  · intro now cid req p hfut hp hver hconf
    unfold create_booking
    rw [if_neg (fun hh => hh hfut), hp]
    dsimp only
    rw [if_neg (fun hh => hh hver), if_pos hconf]
  · intro pid bid b hfind hpend hconf
    unfold accept_booking
    rw [hfind]
    dsimp only
    rw [if_neg (not_not_intro hpend), if_pos hconf]
  · intro now pid bid t b hfut hfind hguard hconf
    unfold reschedule_booking
    rw [if_neg (fun hh => hh hfut), hfind]
    dsimp only
    rw [if_neg (not_not_intro hguard), if_pos hconf]

/-- C9: the total price of a booking is written once by `create_booking` as
the Python-truthy snapshot of the provider's base price at that moment (the
base price itself when non-null and non-zero, NULL otherwise), and the
accept, reject, complete, cancel and reschedule transitions rewrite only the
status field (reschedule also the scheduled instant), leaving every other
booking field, in particular the total price, and the provider table
unchanged. -/
theorem C9_price_snapshot_and_frame (db : DB) :
    (∀ now cid (req : BookingCreate) (db2 : DB) bk,
      create_booking now cid req db = (db2, .ok bk) →
      ∃ p, findProvider db req.provider_id = some p ∧
        bk.total_price = truthyPrice p.base_price) ∧
    (∀ pid bid (db2 : DB) r, accept_booking pid bid db = (db2, .ok r) →
      db2.providers = db.providers ∧ db2.slots = db.slots ∧
      db2.reviews = db.reviews ∧ ∀ b2 ∈ db2.bookings, ∃ b ∈ db.bookings,
        b2 = b ∨ b2 = { b with status := .confirmed }) ∧
    (∀ pid bid (db2 : DB) r, reject_booking pid bid db = (db2, .ok r) →
      db2.providers = db.providers ∧ db2.slots = db.slots ∧
      db2.reviews = db.reviews ∧ ∀ b2 ∈ db2.bookings, ∃ b ∈ db.bookings,
        b2 = b ∨ b2 = { b with status := .cancelled }) ∧
    (∀ pid bid (db2 : DB) r, complete_booking pid bid db = (db2, .ok r) →
      db2.providers = db.providers ∧ db2.slots = db.slots ∧
      db2.reviews = db.reviews ∧ ∀ b2 ∈ db2.bookings, ∃ b ∈ db.bookings,
        b2 = b ∨ b2 = { b with status := .completed }) ∧
    (∀ cid bid (db2 : DB) r, cancel_booking cid bid db = (db2, .ok r) →
      db2.providers = db.providers ∧ db2.slots = db.slots ∧
      db2.reviews = db.reviews ∧ ∀ b2 ∈ db2.bookings, ∃ b ∈ db.bookings,
        b2 = b ∨ b2 = { b with status := .cancelled }) ∧
    (∀ now pid bid (t : Instant) (db2 : DB) r,
      reschedule_booking now pid bid t db = (db2, .ok r) →
      db2.providers = db.providers ∧ db2.slots = db.slots ∧
      db2.reviews = db.reviews ∧ ∀ b2 ∈ db2.bookings, ∃ b ∈ db.bookings,
        b2 = b ∨ b2 = { b with status := .rescheduled, scheduled_for := t }) := by
  refine ⟨?_, ?_, ?_, ?_, ?_, ?_⟩
  · intro now cid req db2 bk h
    unfold create_booking at h
    split at h
    · exact absurd (congrArg Prod.snd h) (by simp)
    · split at h
      · exact absurd (congrArg Prod.snd h) (by simp)
      · next provider hfind =>
        split at h
        · exact absurd (congrArg Prod.snd h) (by simp)
        · split at h
          · exact absurd (congrArg Prod.snd h) (by simp)
          · split at h
            · exact absurd (congrArg Prod.snd h) (by simp)
            · refine ⟨provider, hfind, ?_⟩
              dsimp only at h
              rw [Prod.mk.injEq] at h
              obtain ⟨h1, h2⟩ := h
              rw [Except.ok.injEq] at h2
              rw [← h2]
  · intro pid bid db2 r h
    unfold accept_booking at h
    split at h
    · exact absurd (congrArg Prod.snd h) (by simp)
    · split at h
      · exact absurd (congrArg Prod.snd h) (by simp)
      · split at h
        · exact absurd (congrArg Prod.snd h) (by simp)
        · have hdb := (congrArg Prod.fst h).symm
          subst hdb
          refine ⟨rfl, rfl, rfl, ?_⟩
          intro b2 hb2
          simp only [setStatus] at hb2
          obtain ⟨a, ha, rfl⟩ := List.mem_map.mp hb2
          by_cases e : a.id = bid
          · exact ⟨a, ha, Or.inr (by simp [e])⟩
          · exact ⟨a, ha, Or.inl (by simp [e])⟩
  · intro pid bid db2 r h
    unfold reject_booking at h
    split at h
    · exact absurd (congrArg Prod.snd h) (by simp)
    · split at h
      · exact absurd (congrArg Prod.snd h) (by simp)
      · have hdb := (congrArg Prod.fst h).symm
        subst hdb
        refine ⟨rfl, rfl, rfl, ?_⟩
        intro b2 hb2
        simp only [setStatus] at hb2
        obtain ⟨a, ha, rfl⟩ := List.mem_map.mp hb2
        by_cases e : a.id = bid
        · exact ⟨a, ha, Or.inr (by simp [e])⟩
        · exact ⟨a, ha, Or.inl (by simp [e])⟩
  · intro pid bid db2 r h
    unfold complete_booking at h
    split at h
    · exact absurd (congrArg Prod.snd h) (by simp)
    · split at h
      · exact absurd (congrArg Prod.snd h) (by simp)
      · have hdb := (congrArg Prod.fst h).symm
        subst hdb
        refine ⟨rfl, rfl, rfl, ?_⟩
        intro b2 hb2
        simp only [setStatus] at hb2
        obtain ⟨a, ha, rfl⟩ := List.mem_map.mp hb2
        by_cases e : a.id = bid
        · exact ⟨a, ha, Or.inr (by simp [e])⟩
        · exact ⟨a, ha, Or.inl (by simp [e])⟩
  · intro cid bid db2 r h
    unfold cancel_booking at h
    split at h
    · exact absurd (congrArg Prod.snd h) (by simp)
    · split at h
      · exact absurd (congrArg Prod.snd h) (by simp)
      · have hdb := (congrArg Prod.fst h).symm
        subst hdb
        refine ⟨rfl, rfl, rfl, ?_⟩
        intro b2 hb2
        simp only [setStatus] at hb2
        obtain ⟨a, ha, rfl⟩ := List.mem_map.mp hb2
        by_cases e : a.id = bid
        · exact ⟨a, ha, Or.inr (by simp [e])⟩
        · exact ⟨a, ha, Or.inl (by simp [e])⟩
  · intro now pid bid t db2 r h
    unfold reschedule_booking at h
    split at h
    · exact absurd (congrArg Prod.snd h) (by simp)
    · split at h
      · exact absurd (congrArg Prod.snd h) (by simp)
      · split at h
        · exact absurd (congrArg Prod.snd h) (by simp)
        · split at h
          · exact absurd (congrArg Prod.snd h) (by simp)
          · split at h
            · exact absurd (congrArg Prod.snd h) (by simp)
            · have hdb := (congrArg Prod.fst h).symm
              subst hdb
              refine ⟨rfl, rfl, rfl, ?_⟩
              intro b2 hb2
              dsimp only at hb2
              obtain ⟨a, ha, rfl⟩ := List.mem_map.mp hb2
              by_cases e : a.id = bid
              · exact ⟨a, ha, Or.inr (by simp [e])⟩
              · exact ⟨a, ha, Or.inl (by simp [e])⟩

lemma sqlAvg_append (l : List ℚ) (x : ℚ) :
    sqlAvg (l ++ [x]) = some ((l ++ [x]).sum / (l ++ [x]).length) := by
  unfold sqlAvg
  rw [if_neg]
  simp

lemma create_review_avg_eq :
    ∀ cid (req : ReviewCreate) (db db2 : DB) rv,
      create_review cid req db = (db2, .ok rv) →
      ∀ p ∈ db2.providers, p.id = rv.provider_id →
        p.avg_rating = some ((providerRatings db2 rv.provider_id).sum /
          (providerRatings db2 rv.provider_id).length) := by
  intro cid req db db2 rv h
  unfold create_review at h
  split at h
  · exact absurd (congrArg Prod.snd h) (by simp)
  · split at h
    · exact absurd (congrArg Prod.snd h) (by simp)
    · next booking hfind =>
      split at h
      · exact absurd (congrArg Prod.snd h) (by simp)
      · split at h
        · exact absurd (congrArg Prod.snd h) (by simp)
        · split at h
          · exact absurd (congrArg Prod.snd h) (by simp)
          · dsimp only at h
            rw [Prod.mk.injEq] at h
            obtain ⟨h1, h2⟩ := h
            rw [Except.ok.injEq] at h2
            subst h2
            subst h1
            intro p hp hpid
            simp only [setAvgRating, List.mem_map] at hp
            obtain ⟨a, ha, rfl⟩ := hp
            by_cases e : a.id = booking.provider_id
            · simp only [providerRatings, setAvgRating, e, beq_self_eq_true,
                if_pos] at hpid ⊢
              rw [List.filter_append, List.map_append]
              simp only [List.filter_cons, List.filter_nil, beq_self_eq_true,
                if_pos, List.map_cons, List.map_nil]
              exact sqlAvg_append _ _
            · simp only [beq_iff_eq, e, if_neg, if_false] at hpid ⊢

lemma delete_review_avg_eq :
    ∀ rid (db db2 : DB) rv,
      db.reviews.find? (fun r => r.id == rid) = some rv →
      delete_review rid db = (db2, .ok ()) →
      ∀ p ∈ db2.providers, p.id = rv.provider_id →
        p.avg_rating = some (if (providerRatings db2 rv.provider_id).length = 0
          then 0
          else (providerRatings db2 rv.provider_id).sum /
            (providerRatings db2 rv.provider_id).length) := by
  intro rid db db2 rv hfind h
  unfold delete_review at h
  split at h
  · next heq => rw [hfind] at heq; cases heq
  · next rv0 heq =>
    rw [hfind, Option.some.injEq] at heq
    subst heq
    dsimp only at h
    rw [Prod.mk.injEq] at h
    obtain ⟨h1, -⟩ := h
    subst h1
    intro p hp hpid
    simp only [setAvgRating, List.mem_map] at hp
    obtain ⟨a, ha, rfl⟩ := hp
    by_cases e : a.id = rv.provider_id
    · simp only [providerRatings, setAvgRating, e, beq_self_eq_true,
        if_pos] at hpid ⊢
      by_cases hl : ((List.filter (fun r => r.provider_id == rv.provider_id)
          (List.filter (fun r => r.id != rid) db.reviews)).map
            (fun r => (r.rating : ℚ))).length = 0
      · rw [if_pos hl]
        unfold sqlAvg
        rw [if_pos hl]
        rfl
      · rw [if_neg hl]
        unfold sqlAvg
        rw [if_neg hl]
        rfl
    · simp only [beq_iff_eq, e, if_neg, if_false] at hpid ⊢

/-- C6: a successful `create_review` leaves the provider's stored average
equal to the arithmetic mean of all of the provider's review ratings, and a
successful `delete_review` recomputes the same mean over the remaining
reviews, defaulting to 0 when none remain; in particular ratings 5, 3, 4
give exactly 4, and deleting the rating-3 review gives 4.5. -/
theorem C6_average_rating_recompute :
    (∀ cid (req : ReviewCreate) (db db2 : DB) rv,
      create_review cid req db = (db2, .ok rv) →
      ∀ p ∈ db2.providers, p.id = rv.provider_id →
        p.avg_rating = some ((providerRatings db2 rv.provider_id).sum /
          (providerRatings db2 rv.provider_id).length)) ∧
    (∀ rid (db db2 : DB) rv,
      db.reviews.find? (fun r => r.id == rid) = some rv →
      delete_review rid db = (db2, .ok ()) →
      ∀ p ∈ db2.providers, p.id = rv.provider_id →
        p.avg_rating = some (if (providerRatings db2 rv.provider_id).length = 0
          then 0
          else (providerRatings db2 rv.provider_id).sum /
            (providerRatings db2 rv.provider_id).length)) ∧
    ((findProvider dbReviewEx3 1).map ProviderProfile.avg_rating =
      some (some 4)) ∧
    ((findProvider dbReviewExDel 1).map ProviderProfile.avg_rating =
      some (some (9 / 2))) := by
  refine ⟨create_review_avg_eq, delete_review_avg_eq, ?_, ?_⟩
  · have hpair : create_review 7 ⟨3, 4, none⟩
        ((create_review 7 ⟨2, 3, none⟩
          ((create_review 7 ⟨1, 5, none⟩ dbReviewEx).1)).1) =
        (dbReviewEx3, .ok ⟨2, 3, 7, 1, 4, none⟩) := by
      have h2 : (create_review 7 ⟨3, 4, none⟩
          ((create_review 7 ⟨2, 3, none⟩
            ((create_review 7 ⟨1, 5, none⟩ dbReviewEx).1)).1)).2 =
          .ok ⟨2, 3, 7, 1, 4, none⟩ := rfl
      exact Prod.ext rfl h2
    cases hfp : findProvider dbReviewEx3 1 with
    | none =>
      have : (findProvider dbReviewEx3 1).isSome = true := rfl
      rw [hfp] at this
      cases this
    | some p =>
      have hmem : p ∈ dbReviewEx3.providers := List.mem_of_find?_eq_some hfp
      have hid : p.id = 1 := by simpa using List.find?_some hfp
      have havg := create_review_avg_eq 7 ⟨3, 4, none⟩ _ dbReviewEx3
        ⟨2, 3, 7, 1, 4, none⟩ hpair p hmem hid
      dsimp only at havg
      rw [show Option.map ProviderProfile.avg_rating (some p) =
          some p.avg_rating from rfl, havg,
        show providerRatings dbReviewEx3 1 = [(5 : ℚ), 3, 4] from rfl]
      norm_num
  · have hfind : dbReviewEx3.reviews.find? (fun r => r.id == 1) =
        some ⟨1, 2, 7, 1, 3, none⟩ := rfl
    have hpair : delete_review 1 dbReviewEx3 = (dbReviewExDel, .ok ()) := by
      have h2 : (delete_review 1 dbReviewEx3).2 = .ok () := rfl
      exact Prod.ext rfl h2
    cases hfp : findProvider dbReviewExDel 1 with
    | none =>
      have : (findProvider dbReviewExDel 1).isSome = true := rfl
      rw [hfp] at this
      cases this
    | some p =>
      have hmem : p ∈ dbReviewExDel.providers := List.mem_of_find?_eq_some hfp
      have hid : p.id = 1 := by simpa using List.find?_some hfp
      have havg := delete_review_avg_eq 1 dbReviewEx3 dbReviewExDel
        ⟨1, 2, 7, 1, 3, none⟩ hfind hpair p hmem hid
      dsimp only at havg
      rw [show Option.map ProviderProfile.avg_rating (some p) =
          some p.avg_rating from rfl, havg,
        show providerRatings dbReviewExDel 1 = [(5 : ℚ), 4] from rfl]
      norm_num

lemma searchFilter_eq_spec (dist : Point → Point → ℚ) (ps : SearchParams)
    (hcat : ps.category_id ≠ some 0) (p : ProviderProfile) :
    searchFilter dist ps p = specSearchFilter dist ps p := by
  unfold searchFilter specSearchFilter
  have hd : (match p.location with
      | none => false
      | some loc =>
        decide (dist loc (ps.longitude, ps.latitude) ≤ ps.radius_km * 1000)) =
      (match p.location with
      | none => false
      | some loc =>
        decide (dist loc (ps.longitude, ps.latitude) / 1000 ≤ ps.radius_km)) := by
    cases p.location with
    | none => rfl
    | some loc =>
      simp only [decide_eq_decide]
      rw [div_le_iff₀ (by norm_num)]
  have hc : (match ps.category_id with
      | none => true
      | some c => if c = 0 then true else optEqNat p.category_id c) =
      (match ps.category_id with
      | none => true
      | some c => optEqNat p.category_id c) := by
    cases hcc : ps.category_id with
    | none => rfl
    | some c =>
      have hc0 : c ≠ 0 := fun h0 => hcat (by rw [hcc, h0])
      simp only [if_neg hc0]
  rw [hd, hc]

lemma search_providers_sorted (dist : Point → Point → ℚ) (ps : SearchParams)
    (db : DB) :
    (search_providers dist ps db).Pairwise
      (fun a b => a.distance_km ≤ b.distance_km) := by
  unfold search_providers
  rw [List.pairwise_map]
  have htrans : ∀ a b c : ProviderProfile,
      decide (rowDistKm dist ps a ≤ rowDistKm dist ps b) = true →
      decide (rowDistKm dist ps b ≤ rowDistKm dist ps c) = true →
      decide (rowDistKm dist ps a ≤ rowDistKm dist ps c) = true := by
    intro a b c h1 h2
    simp only [decide_eq_true_eq] at h1 h2 ⊢
    exact le_trans h1 h2
  have htotal : ∀ a b : ProviderProfile,
      (decide (rowDistKm dist ps a ≤ rowDistKm dist ps b) ||
       decide (rowDistKm dist ps b ≤ rowDistKm dist ps a)) = true := by
    intro a b
    simp only [Bool.or_eq_true, decide_eq_true_eq]
    exact le_total _ _
  have hs := List.sorted_mergeSort htrans htotal
    (db.providers.filter (searchFilter dist ps))
  have hs2 : ((db.providers.filter (searchFilter dist ps)).mergeSort
      (fun a b => decide (rowDistKm dist ps a ≤ rowDistKm dist ps b))).Pairwise
      (fun a b => rowDistKm dist ps a ≤ rowDistKm dist ps b) := by
    refine hs.imp ?_
    intro a b hab
    simpa using hab
  exact (hs2.sublist (List.drop_sublist _ _)).sublist (List.take_sublist _ _)

/-- C8: the provider search returns exactly the verified, located providers
whose store distance from the origin is within the radius (boundary
inclusive, distance reported in kilometers as meters over 1000), further
restricted by the optional filters, sorted ascending by distance and
paginated; away from the `category_id = 0` truthiness quirk it equals the
algorithm as the spec words it. -/
theorem C8_search_algorithm (dist : Point → Point → ℚ) (ps : SearchParams)
    (db : DB) (hcat : ps.category_id ≠ some 0) :
    search_providers dist ps db = spec_search_providers dist ps db ∧
    (search_providers dist ps db).Pairwise
      (fun a b => a.distance_km ≤ b.distance_km) ∧
    (∀ row ∈ search_providers dist ps db, ∃ p ∈ db.providers, ∃ loc,
      p.location = some loc ∧ row.id = p.id ∧
      row.distance_km = dist loc (ps.longitude, ps.latitude) / 1000 ∧
      searchFilter dist ps p = true) ∧
    (∀ (q : ProviderProfile) loc, ps.category_id = none → ps.min_rating = none →
      ps.min_price = none → ps.max_price = none → q.is_verified = true →
      q.location = some loc →
      dist loc (ps.longitude, ps.latitude) = ps.radius_km * 1000 →
      searchFilter dist ps q = true) := by
  refine ⟨?_, search_providers_sorted dist ps db, ?_, ?_⟩
  · unfold search_providers spec_search_providers
    rw [List.filter_congr (fun p _ => searchFilter_eq_spec dist ps hcat p)]
  · intro row hrow
    unfold search_providers at hrow
    obtain ⟨p, hp, rfl⟩ := List.mem_map.mp hrow
    have hmem : p ∈ db.providers.filter (searchFilter dist ps) :=
      List.mem_mergeSort.mp (List.mem_of_mem_drop (List.mem_of_mem_take hp))
    obtain ⟨hprov, hfil⟩ := List.mem_filter.mp hmem
    have hloc : ∃ loc, p.location = some loc := by
      unfold searchFilter at hfil
      cases hl : p.location with
      | none =>
        rw [hl] at hfil
        simp at hfil
      | some loc => exact ⟨loc, rfl⟩
    obtain ⟨loc, hl⟩ := hloc
    exact ⟨p, hprov, loc, hl, rfl, by simp [rowDistKm, hl], hfil⟩
  · intro q loc hcn hmr hmp hxp hver hl hd
    unfold searchFilter
    rw [hcn, hmr, hmp, hxp, hver, hl]
    simp [hd]

/-- C10: the category filter is applied only under Python truthiness, so
`category_id = 0` yields exactly the unfiltered search; `min_rating` is
tested against None, so `min_rating = 0` is a genuine SQL clause, observable
on a provider whose stored average rating is NULL: it is returned without
the filter and dropped by `min_rating = 0`. -/
theorem C10_filter_truthiness :
    (∀ (dist : Point → Point → ℚ) (ps : SearchParams) (db : DB),
      search_providers dist { ps with category_id := some 0 } db =
      search_providers dist { ps with category_id := none } db) ∧
    (search_providers zeroDist { psBase with min_rating := some 0 }
      dbNullRating = []) ∧
    ((search_providers zeroDist psBase dbNullRating).map SearchRow.id = [1]) := by
  refine ⟨?_, ?_, ?_⟩
  · intro dist ps db
    rfl
  · norm_num [search_providers, searchFilter, dbNullRating, psBase, zeroDist,
      optGe, rowDistKm, List.mergeSort]
  · norm_num [search_providers, searchFilter, dbNullRating, psBase, zeroDist,
      optGe, rowDistKm, List.mergeSort]

/-- Witness for C1 at a concrete state: the invariant holds, and creating a
second booking at the already-booked instant is refused with Conflict. -/
theorem C1_exact_instant_uniqueness_witness :
    BookingInv dbEx1 ∧
    create_booking 0 4 ⟨1, 36000, "34 Side Street", none⟩ dbEx1 =
      (dbEx1, .error .conflict) :=
  ⟨⟨by unfold DistinctBookingIds; decide, by unfold UniqueNonTerminal; decide⟩,
    (C1_exact_instant_uniqueness dbEx1
      ⟨by unfold DistinctBookingIds; decide,
       by unfold UniqueNonTerminal; decide⟩).1 0 4
      ⟨1, 36000, "34 Side Street", none⟩
      ⟨1, 10, some 2, some 50, true, none, none⟩
      (by decide) rfl rfl (by decide)⟩

/-- Witness for C2: accepting a completed booking fails with the transition
error that reports the completed status. -/
theorem C2_transition_guards_witness :
    accept_booking 1 1 dbEx2 = (dbEx2, .error (.invalidTransition .completed)) :=
  (C2_transition_guards dbEx2).1 1 1
    ⟨1, 3, 1, .completed, 36000, "12 Main Street", some 50, none, 0⟩
    rfl (by decide)

/-- Witness for C3: creating a booking on a weekday with no availability
slot fails with the out-of-availability error. -/
theorem C3_availability_window_required_witness :
    create_booking 0 4 ⟨1, 122400, "34 Side Street", none⟩ dbEx1 =
      (dbEx1, .error .outOfAvailability) :=
  C3_availability_window_required.2.1 0 4 ⟨1, 122400, "34 Side Street", none⟩
    dbEx1 ⟨1, 10, some 2, some 50, true, none, none⟩
    (by decide) rfl rfl (by decide) (by decide)

/-- Witness for C4 at the spec's example intervals (9:00 to 12:00 against
11:00 to 13:00, and the touching 12:00 to 14:00), in minutes. -/
theorem C4_overlap_refinement_witness :
    codeOverlap 540 720 660 780 = specOverlap 540 720 660 780 ∧
    codeOverlap 540 720 720 840 = false :=
  ⟨(C4_overlap_refinement.1 540 720 660 780 (by decide) (by decide)).1,
    (C4_overlap_refinement.1 540 720 720 840 (by decide) (by decide)).2.1 rfl⟩

/-- Witness for C5: a past instant is rejected with the validation error. -/
theorem C5_future_instant_required_witness :
    create_booking 100 4 ⟨1, 50, "34 Side Street", none⟩ dbEx1 =
      (dbEx1, .error .invalidInput) :=
  C5_future_instant_required.1 100 4 ⟨1, 50, "34 Side Street", none⟩ dbEx1
    (by decide)

/-- Witness for C6: after the third review the stored average is the mean of
the provider's ratings. -/
theorem C6_average_rating_recompute_witness :
    (findProvider dbReviewEx3 1).map ProviderProfile.avg_rating =
      some (some ((providerRatings dbReviewEx3 1).sum /
        (providerRatings dbReviewEx3 1).length)) := by
  have hpair : create_review 7 ⟨3, 4, none⟩
      ((create_review 7 ⟨2, 3, none⟩
        ((create_review 7 ⟨1, 5, none⟩ dbReviewEx).1)).1) =
      (dbReviewEx3, .ok ⟨2, 3, 7, 1, 4, none⟩) :=
    Prod.ext rfl rfl
  cases hfp : findProvider dbReviewEx3 1 with
  | none =>
    have hsome : (findProvider dbReviewEx3 1).isSome = true := rfl
    rw [hfp] at hsome
    cases hsome
  | some p =>
    have hmem : p ∈ dbReviewEx3.providers := List.mem_of_find?_eq_some hfp
    have hid : p.id = 1 := by simpa using List.find?_some hfp
    have h := C6_average_rating_recompute.1 7 ⟨3, 4, none⟩ _ dbReviewEx3
      ⟨2, 3, 7, 1, 4, none⟩ hpair p hmem hid
    dsimp only at h
    rw [show Option.map ProviderProfile.avg_rating (some p) =
      some p.avg_rating from rfl, h]

/-- Witness for C7: reviewing a pending booking fails with the validation
error and the state is unchanged. -/
theorem C7_review_creation_guards_witness :
    create_review 3 ⟨1, 5, none⟩ dbEx1 = (dbEx1, .error .invalidInput) :=
  (C7_review_creation_guards dbEx1 3 ⟨1, 5, none⟩ (by decide) (by decide)).2.2.1
    ⟨1, 3, 1, .pending, 36000, "12 Main Street", some 50, none, 0⟩
    rfl rfl (by decide)

/-- Witness for C8 on a concrete state and parameters without the
category-zero quirk: the embedded search equals the spec's algorithm. -/
theorem C8_search_algorithm_witness :
    search_providers zeroDist psBase dbNullRating =
      spec_search_providers zeroDist psBase dbNullRating :=
  (C8_search_algorithm zeroDist psBase dbNullRating (by decide)).1

/-- Counterexample for C9 as literally claimed: creating a booking with a
provider whose base price is exactly 0 succeeds, yet the stored total price
is NULL and not the provider's base price, because the insert applies Python
truthiness to the snapshot. -/
theorem C9_price_snapshot_counterexample :
    (create_booking 0 4 ⟨1, 36000, "34 Side Street", none⟩ dbZeroPrice).2 =
      Except.ok ⟨0, 4, 1, .pending, 36000, "34 Side Street", none, none, 0⟩ ∧
    (findProvider dbZeroPrice 1).map ProviderProfile.base_price =
      some (some 0) ∧
    Booking.total_price
      ⟨0, 4, 1, .pending, 36000, "34 Side Street", none, none, 0⟩ ≠ some 0 :=
  ⟨rfl, rfl, by decide⟩

/-- Witness for C9: a successful accept leaves the provider table (and thus
every price snapshot input) unchanged. -/
theorem C9_price_snapshot_and_frame_witness :
    (accept_booking 1 1 dbEx1).1.providers = dbEx1.providers := by
  have heq : accept_booking 1 1 dbEx1 = ((accept_booking 1 1 dbEx1).1,
      .ok ⟨1, 3, 1, .confirmed, 36000, "12 Main Street", some 50, none, 0⟩) :=
    Prod.ext rfl rfl
  exact ((C9_price_snapshot_and_frame dbEx1).2.1 1 1 _ _ heq).1

end Buzz
